import Mathlib

/-!
Verification of the valvelet projection/comparison engine (src/valvelet.py).

Shallow embedding conventions:
* Python `date` values are proleptic-Gregorian ordinals, modelled as `Int`
  (`date + timedelta(days=i)` is `+ i`, comparisons are the `Int` order).
  `date.max` is the ordinal of 9999-12-31, i.e. `3652059`.
* Python floats (currency amounts) are modelled as `ℚ`.
* Python `list.sort(key=...)` is a stable ascending sort by key; any stable
  ascending sort by a total preorder computes the same list, so it is
  modelled by `List.insertionSort` with the key ordering (Mathlib's
  `insertionSort` is stable: earlier elements precede later equal-key ones).
* Python `lst[:n]` slicing (as used by `SimResult.truncated`, whose argument
  is a Python `int`) is `pyTake`, including the negative-index semantics.
* `range(max_days)` for a Python int `max_days` iterates `max 0 max_days`
  times, so `max_days` is modelled as `Nat`.
-/

/-- Ordinal of Python `date.max` = 9999-12-31. -/
def dateMax : Int := 3652059

def MAX_DAYS_DEFAULT : Nat := 36500

def CHART_FALLBACK_DAYS : Nat := 3650

def DAYS_PER_MONTH : ℚ := 30

def DAYS_PER_WEEK : ℚ := 7

structure IncomeEntry where
  source : String
  amount : ℚ
  frequency : String
  start : Int
  stop : Option Int := none
deriving DecidableEq, Repr

structure Activity where
  name : String
  cost : ℚ
  days_per_week : ℚ
deriving DecidableEq, Repr

structure Scenario where
  name : String
  activities : List Activity := []
deriving DecidableEq, Repr

structure SimResult where
  name : String
  dates : List Int
  balances : List ℚ
  death_day : Option Int
  daily_burn : ℚ
  monthly_burn : ℚ
  daily_income_avg : ℚ
deriving DecidableEq, Repr

/-- Python slice `l[:n]` for an `int` `n` (negative `n` counts from the end). -/
def pyTake {α : Type} (l : List α) (n : Int) : List α :=
  if n < 0 then l.take ((l.length + n).toNat) else l.take n.toNat

/-- `SimResult.truncated` (src/valvelet.py:63-73): copy with dates/balances
truncated to `length`. -/
def SimResult.truncated (r : SimResult) (length : Int) : SimResult :=
  { name := r.name
    dates := pyTake r.dates length
    balances := pyTake r.balances length
    death_day := r.death_day
    daily_burn := r.daily_burn
    monthly_burn := r.monthly_burn
    daily_income_avg := r.daily_income_avg }

/-- Python `inc.end is not None and d > inc.end` (src/valvelet.py:140). -/
def afterStop (o : Option Int) (d : Int) : Bool :=
  match o with
  | some e => decide (e < d)
  | none => false

/-- One entry's contribution inside the `daily_income` loop
(src/valvelet.py:137-150): the body of `for inc in incomes`. -/
def entryIncome (inc : IncomeEntry) (d : Int) : ℚ :=
  if d < inc.start then 0
  else if afterStop inc.stop d then 0
  else if inc.frequency = "daily" then inc.amount
  else if inc.frequency = "monthly" then inc.amount / DAYS_PER_MONTH
  else if inc.frequency = "weekly" then inc.amount / DAYS_PER_WEEK
  else if inc.frequency = "once" then (if d = inc.start then inc.amount else 0)
  else 0

/-- `daily_income` (src/valvelet.py:134-151). -/
def daily_income (incomes : List IncomeEntry) (d : Int) : ℚ :=
  incomes.foldl (fun total inc => total + entryIncome inc d) 0

/-- `daily_scenario_cost` (src/valvelet.py:154-159). -/
def daily_scenario_cost (scenario : Scenario) : ℚ :=
  scenario.activities.foldl (fun total act => total + act.cost * act.days_per_week / DAYS_PER_WEEK) 0

/-- Mutable state of the `for i in range(max_days)` loop in `simulate`. -/
structure SimState where
  cash : ℚ
  dates : List Int
  balances : List ℚ
  death_day : Option Int
  total_income : ℚ
deriving Repr

/-- The `for i in range(max_days)` loop of `simulate` (src/valvelet.py:180-193).
`dates`/`balances` accumulate newest-first (reversed at the end). -/
def simLoop (start : Int) (incomes : List IncomeEntry) (daily_fixed daily_var : ℚ) :
    Nat → Nat → SimState → SimState
  | 0, _, st => st
  | fuel + 1, i, st =>
    let d : Int := start + (i : Int)
    let dates := d :: st.dates
    let balances := st.cash :: st.balances
    if st.cash ≤ 0 ∧ st.death_day = none then
      { st with dates := dates, balances := balances, death_day := some d }
    else
      let inc := daily_income incomes d
      let cash1 := st.cash + inc - daily_fixed - daily_var
      let cash2 := if cash1 < 0 then (0 : ℚ) else cash1
      simLoop start incomes daily_fixed daily_var fuel (i + 1)
        { cash := cash2, dates := dates, balances := balances,
          death_day := st.death_day, total_income := st.total_income + inc }

/-- `simulate` (src/valvelet.py:162-204). -/
def simulate (balance : ℚ) (start : Int) (incomes : List IncomeEntry)
    (fixed_monthly : ℚ) (scenario : Scenario)
    (max_days : Nat := MAX_DAYS_DEFAULT) : SimResult :=
  let daily_fixed := fixed_monthly / DAYS_PER_MONTH
  let daily_var := daily_scenario_cost scenario
  let st := simLoop start incomes daily_fixed daily_var max_days 0
    { cash := balance, dates := [], balances := [], death_day := none, total_income := 0 }
  let dates := st.dates.reverse
  let balances := st.balances.reverse
  let sim_days := dates.length
  { name := scenario.name
    dates := dates
    balances := balances
    death_day := st.death_day
    daily_burn := daily_fixed + daily_var
    monthly_burn := (daily_fixed + daily_var) * DAYS_PER_MONTH
    daily_income_avg := if sim_days > 0 then st.total_income / (sim_days : ℚ) else 0 }

/-- Sort key of `results.sort(key=lambda r: r.death_day or date.max)`
(src/valvelet.py:291). -/
def deathKey (r : SimResult) : Int :=
  r.death_day.getD dateMax

/-- The ordering used by the comparator's sort: ascending `deathKey`. -/
def deathLe (a b : SimResult) : Prop :=
  deathKey a ≤ deathKey b

instance : DecidableRel deathLe := fun a b => inferInstanceAs (Decidable (deathKey a ≤ deathKey b))

instance : IsTotal SimResult deathLe := ⟨fun a b => le_total (deathKey a) (deathKey b)⟩

instance : IsTrans SimResult deathLe := ⟨fun _ _ _ h1 h2 => le_trans h1 h2⟩

/-- Python `max(death_lens) if death_lens else CHART_FALLBACK_DAYS`
(src/valvelet.py:285): `max` of a nonempty int list is a left fold. -/
def chartLenCode (death_lens : List Nat) : Nat :=
  match death_lens with
  | [] => CHART_FALLBACK_DAYS
  | x :: xs => xs.foldl max x

/-- `Valvelet._run_all_scenarios` (src/valvelet.py:272-292), with the
self/TUI plumbing stripped: run all scenarios, truncate to chart length,
return sorted by death day.  Python's `list.sort` is a stable ascending
sort by key; any two stable ascending sorts by the same total-preorder key
agree, and `List.insertionSort` is one (earlier elements precede later
equal-key elements), so it models `results.sort(key=...)`. -/
def run_all_scenarios (balance : ℚ) (start : Int) (incomes : List IncomeEntry)
    (fixed : ℚ) (scenarios : List Scenario) : List SimResult :=
  let results := scenarios.map (fun scn => simulate balance start incomes fixed scn)
  let death_lens := (results.filter (fun r => r.death_day.isSome)).map (fun r => r.balances.length)
  let chart_len : Nat := chartLenCode death_lens
  let results2 := results.map (fun r => r.truncated (chart_len : Int))
  List.insertionSort deathLe results2

/-!
Claim-side definitions: these follow the wording of the spec/claims, to be
compared with the source-derived definitions above.
-/

/-- The per-entry income contribution exactly as claim C7 words it:
0 if the date precedes the entry's start or follows its defined end;
otherwise the full amount for `daily`, amount/7 for `weekly`, amount/30 for
`monthly`, and for `once` the amount exactly when the date equals the
entry's start (0 on every other date). -/
def claimEntryIncome (inc : IncomeEntry) (d : Int) : ℚ :=
  if d < inc.start then 0
  else if afterStop inc.stop d then 0
  else if inc.frequency = "daily" then inc.amount
  else if inc.frequency = "weekly" then inc.amount / 7
  else if inc.frequency = "monthly" then inc.amount / 30
  else if inc.frequency = "once" then (if d = inc.start then inc.amount else 0)
  else 0

/-- Chart length as claim C2 words it: the maximum series length among the
results whose `death_day` is non-none, or the constant 3650 if no result
has a death day. -/
def chartLenSpec (results : List SimResult) : Nat :=
  (((results.filter (fun r => r.death_day.isSome)).map (fun r => r.balances.length)).max?).getD
    CHART_FALLBACK_DAYS

/-- Claim C3's ordering property: every result with `death_day = none` is
placed after every result with a real death day (equivalently, once a
`none` appears, everything at or after that position is `none`). -/
def NoneLast (l : List SimResult) : Prop :=
  ∀ i j (hi : i < l.length) (hj : j < l.length), i ≤ j →
    (l.get ⟨i, hi⟩).death_day = none → (l.get ⟨j, hj⟩).death_day = none


/-!
Lemmas about the simulation loop.
-/

theorem simLoop_zero (s : Int) (incs : List IncomeEntry) (df dv : ℚ) (i : Nat) (st : SimState) :
    simLoop s incs df dv 0 i st = st := rfl

theorem simLoop_succ_break (s : Int) (incs : List IncomeEntry) (df dv : ℚ) (f i : Nat)
    (st : SimState) (hc : st.cash ≤ 0 ∧ st.death_day = none) :
    simLoop s incs df dv (f + 1) i st =
      { st with dates := (s + (i : Int)) :: st.dates,
                balances := st.cash :: st.balances,
                death_day := some (s + (i : Int)) } := by
  rw [simLoop]
  simp only [if_pos hc]

theorem simLoop_succ_step (s : Int) (incs : List IncomeEntry) (df dv : ℚ) (f i : Nat)
    (st : SimState) (hc : ¬(st.cash ≤ 0 ∧ st.death_day = none)) :
    simLoop s incs df dv (f + 1) i st =
      simLoop s incs df dv f (i + 1)
        { cash := if st.cash + daily_income incs (s + (i : Int)) - df - dv < 0 then (0 : ℚ)
            else st.cash + daily_income incs (s + (i : Int)) - df - dv,
          dates := (s + (i : Int)) :: st.dates,
          balances := st.cash :: st.balances,
          death_day := st.death_day,
          total_income := st.total_income + daily_income incs (s + (i : Int)) } := by
  rw [simLoop]
  simp only [if_neg hc]

theorem simLoop_shape (s : Int) (incs : List IncomeEntry) (df dv : ℚ) :
    ∀ (f i : Nat) (st : SimState), ∃ k : Nat,
      k ≤ f ∧ (0 < f → 0 < k) ∧
      (simLoop s incs df dv f i st).dates =
        ((List.range k).map (fun j => s + ((i + j : Nat) : Int))).reverse ++ st.dates ∧
      (simLoop s incs df dv f i st).balances.length = k + st.balances.length ∧
      ((simLoop s incs df dv f i st).death_day = st.death_day → k = f) := by
  intro f
  induction f with
  | zero =>
    intro i st
    exact ⟨0, by simp [simLoop_zero]⟩
  | succ f ih =>
    intro i st
    by_cases hc : st.cash ≤ 0 ∧ st.death_day = none
    · refine ⟨1, by omega, by omega, ?_, ?_, ?_⟩
      · simp [simLoop_succ_break s incs df dv f i st hc, List.range_succ]
      · simp only [simLoop_succ_break s incs df dv f i st hc, List.length_cons]
        omega
      · intro hdd
        rw [simLoop_succ_break s incs df dv f i st hc] at hdd
        simp only at hdd
        rw [hc.2] at hdd
        cases hdd
    · rw [simLoop_succ_step s incs df dv f i st hc]
      obtain ⟨k, hk, hkpos, hdates, hbal, hdd⟩ := ih (i + 1)
        { cash := if st.cash + daily_income incs (s + (i : Int)) - df - dv < 0 then (0 : ℚ)
            else st.cash + daily_income incs (s + (i : Int)) - df - dv,
          dates := (s + (i : Int)) :: st.dates,
          balances := st.cash :: st.balances,
          death_day := st.death_day,
          total_income := st.total_income + daily_income incs (s + (i : Int)) }
      refine ⟨k + 1, by omega, by omega, ?_, ?_, ?_⟩
      · rw [hdates]
        rw [List.range_succ_eq_map]
        simp only [List.map_cons, List.map_map, List.reverse_cons, List.append_assoc,
          List.singleton_append, Nat.add_zero]
        congr 2
        apply List.map_congr_left
        intro j _
        simp only [Function.comp_apply, Nat.succ_eq_add_one]
        congr 1
        omega
      · rw [hbal]
        simp only [List.length_cons]
        omega
      · intro h
        have := hdd h
        omega

theorem simLoop_balances_nonneg (s : Int) (incs : List IncomeEntry) (df dv : ℚ) :
    ∀ (f i : Nat) (st : SimState), 0 ≤ st.cash → (∀ b ∈ st.balances, (0 : ℚ) ≤ b) →
      ∀ b ∈ (simLoop s incs df dv f i st).balances, (0 : ℚ) ≤ b := by
  intro f
  induction f with
  | zero =>
    intro i st _ hb
    simpa [simLoop_zero] using hb
  | succ f ih =>
    intro i st hcash hb
    by_cases hc : st.cash ≤ 0 ∧ st.death_day = none
    · rw [simLoop_succ_break s incs df dv f i st hc]
      intro b hmem
      simp only [List.mem_cons] at hmem
      rcases hmem with rfl | hmem
      · exact hcash
      · exact hb b hmem
    · rw [simLoop_succ_step s incs df dv f i st hc]
      refine ih _ _ ?_ ?_
      · dsimp only
        split_ifs with h
        · exact le_refl 0
        · linarith
      · dsimp only
        intro b hmem
        rcases List.mem_cons.mp hmem with rfl | hmem
        · exact hcash
        · exact hb b hmem

theorem simLoop_death_char (s : Int) (incs : List IncomeEntry) (df dv : ℚ) :
    ∀ (f i : Nat) (st : SimState), st.death_day = none → (∀ b ∈ st.balances, (0 : ℚ) < b) →
      ∀ d, (simLoop s incs df dv f i st).death_day = some d →
        (simLoop s incs df dv f i st).dates.head? = some d ∧
        ∃ c t, (simLoop s incs df dv f i st).balances = c :: t ∧ c ≤ 0 ∧
          ∀ b ∈ t, (0 : ℚ) < b := by
  intro f
  induction f with
  | zero =>
    intro i st hdd _ d hsome
    rw [simLoop_zero] at hsome
    rw [hdd] at hsome
    cases hsome
  | succ f ih =>
    intro i st hdd hb d hsome
    by_cases hc : st.cash ≤ 0 ∧ st.death_day = none
    · rw [simLoop_succ_break s incs df dv f i st hc] at hsome ⊢
      simp only at hsome ⊢
      cases hsome
      exact ⟨rfl, st.cash, st.balances, rfl, hc.1, hb⟩
    · rw [simLoop_succ_step s incs df dv f i st hc] at hsome ⊢
      have hpos : (0 : ℚ) < st.cash := by
        rcases not_and_or.mp hc with h | h
        · exact lt_of_not_le h
        · exact absurd hdd h
      refine ih (i + 1) _ ?_ ?_ d hsome
      · exact hdd
      dsimp only
      intro b hmem
      rcases List.mem_cons.mp hmem with rfl | hmem
      · exact hpos
      · exact hb b hmem

theorem simulate_dates (b : ℚ) (s : Int) (incs : List IncomeEntry) (fm : ℚ) (scn : Scenario)
    (m : Nat) :
    (simulate b s incs fm scn m).dates =
      (simLoop s incs (fm / DAYS_PER_MONTH) (daily_scenario_cost scn) m 0
        { cash := b, dates := [], balances := [], death_day := none,
          total_income := 0 }).dates.reverse := rfl

theorem simulate_balances (b : ℚ) (s : Int) (incs : List IncomeEntry) (fm : ℚ) (scn : Scenario)
    (m : Nat) :
    (simulate b s incs fm scn m).balances =
      (simLoop s incs (fm / DAYS_PER_MONTH) (daily_scenario_cost scn) m 0
        { cash := b, dates := [], balances := [], death_day := none,
          total_income := 0 }).balances.reverse := rfl

theorem simulate_death (b : ℚ) (s : Int) (incs : List IncomeEntry) (fm : ℚ) (scn : Scenario)
    (m : Nat) :
    (simulate b s incs fm scn m).death_day =
      (simLoop s incs (fm / DAYS_PER_MONTH) (daily_scenario_cost scn) m 0
        { cash := b, dates := [], balances := [], death_day := none,
          total_income := 0 }).death_day := rfl

theorem simulate_shape (b : ℚ) (s : Int) (incs : List IncomeEntry) (fm : ℚ) (scn : Scenario)
    (m : Nat) :
    (simulate b s incs fm scn m).dates.length = (simulate b s incs fm scn m).balances.length ∧
    (simulate b s incs fm scn m).dates =
      (List.range (simulate b s incs fm scn m).dates.length).map (fun j : Nat => s + (j : Int)) ∧
    (0 < m → (simulate b s incs fm scn m).dates ≠ []) ∧
    (simulate b s incs fm scn m).dates.length ≤ m ∧
    ((simulate b s incs fm scn m).death_day = none →
      (simulate b s incs fm scn m).dates.length = m) := by
  obtain ⟨k, hk, hkpos, hdates, hbal, hdd⟩ :=
    simLoop_shape s incs (fm / DAYS_PER_MONTH) (daily_scenario_cost scn) m 0
      { cash := b, dates := [], balances := [], death_day := none, total_income := 0 }
  have hd : (simulate b s incs fm scn m).dates = (List.range k).map (fun j : Nat => s + (j : Int)) := by
    rw [simulate_dates, hdates]
    dsimp only
    rw [List.append_nil, List.reverse_reverse]
    apply List.map_congr_left
    intro j _
    norm_num
  have hlen : (simulate b s incs fm scn m).dates.length = k := by
    rw [hd, List.length_map, List.length_range]
  refine ⟨?_, ?_, ?_, ?_, ?_⟩
  · rw [hlen, simulate_balances, List.length_reverse, hbal]
    simp
  · rw [hlen, hd]
  · intro hm
    rw [hd]
    have := hkpos hm
    intro hnil
    rw [List.map_eq_nil_iff, List.range_eq_nil] at hnil
    omega
  · omega
  · intro hnone
    rw [simulate_death] at hnone
    rw [hlen]
    exact hdd (by rw [hnone])

theorem foldl_add_map {α : Type} (f : α → ℚ) :
    ∀ (l : List α) (a : ℚ), l.foldl (fun t x => t + f x) a = a + (l.map f).sum := by
  intro l
  induction l with
  | nil => intro a; simp
  | cons x xs ih =>
    intro a
    simp only [List.foldl_cons, List.map_cons, List.sum_cons, ih]
    ring

theorem daily_income_eq_sum (incs : List IncomeEntry) (d : Int) :
    daily_income incs d = (incs.map (fun inc => entryIncome inc d)).sum := by
  unfold daily_income
  rw [foldl_add_map]
  ring

theorem entryIncome_eq_claim (inc : IncomeEntry) (d : Int) :
    entryIncome inc d = claimEntryIncome inc d := by
  unfold entryIncome claimEntryIncome DAYS_PER_MONTH DAYS_PER_WEEK
  split_ifs with h1 h2 h3 h4 h5 h6 h7 h8 <;> try rfl
  exfalso
  rw [h4] at h5
  exact absurd h5 (by decide)

theorem entryIncome_unrecognized (inc : IncomeEntry)
    (h1 : inc.frequency ≠ "daily") (h2 : inc.frequency ≠ "weekly")
    (h3 : inc.frequency ≠ "monthly") (h4 : inc.frequency ≠ "once") (d : Int) :
    entryIncome inc d = 0 := by
  unfold entryIncome
  split_ifs <;> rfl

theorem truncated_death_day (r : SimResult) (n : Int) :
    (r.truncated n).death_day = r.death_day := rfl

theorem truncated_scalars (r : SimResult) (n : Int) :
    (r.truncated n).name = r.name ∧ (r.truncated n).death_day = r.death_day ∧
    (r.truncated n).daily_burn = r.daily_burn ∧ (r.truncated n).monthly_burn = r.monthly_burn ∧
    (r.truncated n).daily_income_avg = r.daily_income_avg :=
  ⟨rfl, rfl, rfl, rfl, rfl⟩

theorem truncated_take (r : SimResult) (n : Nat) :
    (r.truncated (n : Int)).dates = r.dates.take n ∧
    (r.truncated (n : Int)).balances = r.balances.take n := by
  unfold SimResult.truncated pyTake
  constructor <;> simp

theorem chartLen_code_eq_spec (results : List SimResult) :
    chartLenCode ((results.filter (fun r => r.death_day.isSome)).map (fun r => r.balances.length)) =
      chartLenSpec results := by
  unfold chartLenSpec chartLenCode
  rcases hm : (results.filter (fun r => r.death_day.isSome)).map (fun r => r.balances.length) with
    _ | ⟨x, xs⟩ <;> rw [hm] <;> rfl

theorem filter_orderedInsert_key (p : SimResult → Bool)
    (hp : ∀ x y, p x = true → p y = true → deathKey x = deathKey y) (x : SimResult) :
    ∀ l : List SimResult,
      (List.orderedInsert deathLe x l).filter p =
        if p x then x :: l.filter p else l.filter p := by
  intro l
  induction l with
  | nil =>
    by_cases hpx : p x <;> simp [List.orderedInsert, List.filter_cons, hpx]
  | cons c cs ih =>
    by_cases hle : deathLe x c
    · rw [List.orderedInsert, if_pos hle]
      by_cases hpx : p x <;> simp [List.filter_cons, hpx]
    · rw [List.orderedInsert, if_neg hle]
      by_cases hpx : p x
      · have hpc : p c = false := by
          rcases Bool.eq_false_or_eq_true (p c) with h | h
          · exact absurd (show deathLe x c from le_of_eq (hp x c hpx h)) hle
          · exact h
        rw [List.filter_cons, List.filter_cons]
        rw [hpc]
        simp only [Bool.false_eq_true, if_false, ih, hpx, if_true]
      · rw [List.filter_cons, List.filter_cons, ih]
        simp only [hpx, Bool.false_eq_true, if_false]

theorem filter_insertionSort_key (p : SimResult → Bool)
    (hp : ∀ x y, p x = true → p y = true → deathKey x = deathKey y) :
    ∀ l : List SimResult, (List.insertionSort deathLe l).filter p = l.filter p := by
  intro l
  induction l with
  | nil => rfl
  | cons c cs ih =>
    rw [List.insertionSort, filter_orderedInsert_key p hp, ih, List.filter_cons]

theorem run_all_eq (b : ℚ) (s : Int) (incs : List IncomeEntry) (fm : ℚ) (scns : List Scenario) :
    run_all_scenarios b s incs fm scns =
      List.insertionSort deathLe
        ((scns.map (fun scn => simulate b s incs fm scn)).map
          (fun r => r.truncated ((chartLenSpec (scns.map (fun scn => simulate b s incs fm scn)) : Int)))) := by
  unfold run_all_scenarios
  simp only [chartLen_code_eq_spec]

theorem simLoop_const_cash (s : Int) (df dv : ℚ) (hsum : df + dv = 0) :
    ∀ (f i : Nat) (st : SimState), st.death_day = none → 0 < st.cash →
      (simLoop s [] df dv f i st).death_day = none := by
  intro f
  induction f with
  | zero =>
    intro i st hdd _
    rw [simLoop_zero]
    exact hdd
  | succ f ih =>
    intro i st hdd hpos
    have hc : ¬(st.cash ≤ 0 ∧ st.death_day = none) := by
      intro h
      exact absurd hpos (not_lt_of_le h.1)
    rw [simLoop_succ_step s [] df dv f i st hc]
    refine ih _ _ hdd ?_
    have hdi : daily_income [] (s + (i : Int)) = 0 := rfl
    dsimp only
    have hc1 : st.cash + daily_income [] (s + (i : Int)) - df - dv = st.cash := by
      rw [hdi]
      linarith
    rw [hc1, if_neg (not_lt.mpr (le_of_lt hpos))]
    exact hpos

theorem simLoop_unit_burn (s : Int) (df dv : ℚ) (hsum : df + dv = 1) :
    ∀ (n : Nat) (f i : Nat) (st : SimState), st.death_day = none → st.cash = (n : ℚ) →
      n + 1 ≤ f →
      (simLoop s [] df dv f i st).death_day = some (s + ((i + n : Nat) : Int)) ∧
      (simLoop s [] df dv f i st).dates.length = st.dates.length + (n + 1) := by
  intro n
  induction n with
  | zero =>
    intro f i st hdd hcash hf
    obtain ⟨g, rfl⟩ : ∃ g, f = g + 1 := ⟨f - 1, by omega⟩
    have hc : st.cash ≤ 0 ∧ st.death_day = none := ⟨by rw [hcash]; norm_num, hdd⟩
    rw [simLoop_succ_break s [] df dv g i st hc]
    refine ⟨by norm_num, ?_⟩
    simp only [List.length_cons]
  | succ n ih =>
    intro f i st hdd hcash hf
    obtain ⟨g, rfl⟩ : ∃ g, f = g + 1 := ⟨f - 1, by omega⟩
    have hpos : (0 : ℚ) < st.cash := by
      rw [hcash]
      push_cast
      positivity
    have hc : ¬(st.cash ≤ 0 ∧ st.death_day = none) := fun h => absurd hpos (not_lt_of_le h.1)
    rw [simLoop_succ_step s [] df dv g i st hc]
    have hdi : daily_income [] (s + (i : Int)) = 0 := rfl
    have hc2 : (if st.cash + daily_income [] (s + (i : Int)) - df - dv < 0 then (0 : ℚ)
        else st.cash + daily_income [] (s + (i : Int)) - df - dv) = (n : ℚ) := by
      have hc1 : st.cash + daily_income [] (s + (i : Int)) - df - dv = (n : ℚ) := by
        rw [hdi, hcash]
        push_cast
        linarith
      rw [hc1, if_neg (not_lt.mpr (by positivity))]
    have key := ih g (i + 1)
      { cash := if st.cash + daily_income [] (s + (i : Int)) - df - dv < 0 then (0 : ℚ)
          else st.cash + daily_income [] (s + (i : Int)) - df - dv,
        dates := (s + (i : Int)) :: st.dates,
        balances := st.cash :: st.balances,
        death_day := st.death_day,
        total_income := st.total_income + daily_income [] (s + (i : Int)) }
      hdd hc2 (by omega)
    refine ⟨?_, ?_⟩
    · rw [key.1]
      have harith : ((i + 1) + n : Nat) = (i + (n + 1) : Nat) := by omega
      rw [harith]
    · rw [key.2]
      simp only [List.length_cons]
      omega

theorem cexA_char :
    (simulate 36499 3615560 [] 0 ⟨"A", [⟨"a", 1, 7⟩]⟩).death_day = some dateMax ∧
    (simulate 36499 3615560 [] 0 ⟨"A", [⟨"a", 1, 7⟩]⟩).balances.length = 36500 := by
  have hsum : (0 : ℚ) / DAYS_PER_MONTH + daily_scenario_cost ⟨"A", [⟨"a", 1, 7⟩]⟩ = 1 := by
    norm_num [DAYS_PER_MONTH, daily_scenario_cost, DAYS_PER_WEEK, List.foldl]
  have key := simLoop_unit_burn 3615560 ((0 : ℚ) / DAYS_PER_MONTH)
    (daily_scenario_cost ⟨"A", [⟨"a", 1, 7⟩]⟩) hsum 36499 MAX_DAYS_DEFAULT 0
    { cash := 36499, dates := [], balances := [], death_day := none, total_income := 0 }
    rfl (by norm_num) (by norm_num [MAX_DAYS_DEFAULT])
  have hdeath : (simulate 36499 3615560 [] 0 ⟨"A", [⟨"a", 1, 7⟩]⟩).death_day = some dateMax := by
    rw [simulate_death, key.1]
    norm_num [dateMax]
  refine ⟨hdeath, ?_⟩
  have hlen : (simulate 36499 3615560 [] 0 ⟨"A", [⟨"a", 1, 7⟩]⟩).dates.length = 36500 := by
    rw [simulate_dates, List.length_reverse, key.2]
    rfl
  rw [← (simulate_shape 36499 3615560 [] 0 ⟨"A", [⟨"a", 1, 7⟩]⟩ MAX_DAYS_DEFAULT).1]
  exact hlen

theorem cexB_char :
    (simulate 36499 3615560 [] 0 ⟨"B", []⟩).death_day = none ∧
    (simulate 36499 3615560 [] 0 ⟨"B", []⟩).dates.length = 36500 := by
  have hsum : (0 : ℚ) / DAYS_PER_MONTH + daily_scenario_cost ⟨"B", []⟩ = 0 := by
    norm_num [DAYS_PER_MONTH, daily_scenario_cost, List.foldl]
  have hdeath : (simulate 36499 3615560 [] 0 ⟨"B", []⟩).death_day = none := by
    rw [simulate_death]
    exact simLoop_const_cash 3615560 _ _ hsum MAX_DAYS_DEFAULT 0 _ rfl (by norm_num)
  refine ⟨hdeath, ?_⟩
  have := (simulate_shape 36499 3615560 [] 0 ⟨"B", []⟩ MAX_DAYS_DEFAULT).2.2.2.2 hdeath
  exact this

theorem cex_run_all :
    (run_all_scenarios 36499 3615560 [] 0
        [⟨"B", []⟩, ⟨"A", [⟨"a", 1, 7⟩]⟩]).map (fun r => r.death_day) =
      [none, some dateMax] := by
  obtain ⟨hAd, hAl⟩ := cexA_char
  obtain ⟨hBd, _⟩ := cexB_char
  rw [run_all_eq]
  simp only [List.map_cons, List.map_nil]
  have hcl : chartLenSpec [simulate 36499 3615560 [] 0 ⟨"B", []⟩,
      simulate 36499 3615560 [] 0 ⟨"A", [⟨"a", 1, 7⟩]⟩] = 36500 := by
    unfold chartLenSpec
    rw [List.filter_cons, List.filter_cons, List.filter_nil, hBd, hAd]
    simp only [Option.isSome_none, Option.isSome_some]
    rw [if_neg Bool.false_ne_true, if_pos trivial]
    rw [List.map_cons, List.map_nil, hAl]
    rfl
  rw [hcl]
  have hkeyB : deathKey ((simulate 36499 3615560 [] 0 ⟨"B", []⟩).truncated ((36500 : Nat) : Int)) =
      dateMax := by
    unfold deathKey
    rw [truncated_death_day, hBd]
    rfl
  have hkeyA : deathKey ((simulate 36499 3615560 [] 0
      ⟨"A", [⟨"a", 1, 7⟩]⟩).truncated ((36500 : Nat) : Int)) = dateMax := by
    unfold deathKey
    rw [truncated_death_day, hAd]
    rfl
  have hle : deathLe ((simulate 36499 3615560 [] 0 ⟨"B", []⟩).truncated ((36500 : Nat) : Int))
      ((simulate 36499 3615560 [] 0 ⟨"A", [⟨"a", 1, 7⟩]⟩).truncated ((36500 : Nat) : Int)) := by
    unfold deathLe
    rw [hkeyB, hkeyA]
  simp only [List.insertionSort, List.orderedInsert]
  rw [if_pos hle]
  rw [List.map_cons, List.map_cons, List.map_nil]
  rw [truncated_death_day, truncated_death_day, hAd, hBd]

theorem simulate_avg (b : ℚ) (s : Int) (incs : List IncomeEntry) (fm : ℚ) (scn : Scenario)
    (m : Nat) :
    (simulate b s incs fm scn m).daily_income_avg =
      if (simLoop s incs (fm / DAYS_PER_MONTH) (daily_scenario_cost scn) m 0
            { cash := b, dates := [], balances := [], death_day := none,
              total_income := 0 }).dates.reverse.length > 0 then
        (simLoop s incs (fm / DAYS_PER_MONTH) (daily_scenario_cost scn) m 0
            { cash := b, dates := [], balances := [], death_day := none,
              total_income := 0 }).total_income /
          ((simLoop s incs (fm / DAYS_PER_MONTH) (daily_scenario_cost scn) m 0
            { cash := b, dates := [], balances := [], death_day := none,
              total_income := 0 }).dates.reverse.length : ℚ)
      else 0 := rfl

/-!
Claim theorems.
-/

/-- Claim C1: whenever `simulate` returns a set `death_day = some d`, then `d`
is the last recorded date, the last recorded (pre-flow) balance is ≤ 0 while
every earlier recorded balance is > 0 (so `d` is the first date whose
recorded balance was ≤ 0), and the two series stay aligned — the loop stops
on that day, so no day after it is recorded. -/
theorem claim_C1_death_day (b : ℚ) (s : Int) (incs : List IncomeEntry) (fm : ℚ)
    (scn : Scenario) (m : Nat) (d : Int)
    (h : (simulate b s incs fm scn m).death_day = some d) :
    (simulate b s incs fm scn m).dates.getLast? = some d ∧
    (∃ c, (simulate b s incs fm scn m).balances.getLast? = some c ∧ c ≤ 0) ∧
    (∀ x ∈ (simulate b s incs fm scn m).balances.dropLast, (0 : ℚ) < x) ∧
    (simulate b s incs fm scn m).dates.length = (simulate b s incs fm scn m).balances.length := by
  obtain ⟨hhead, c, t, hbal, hc, ht⟩ :=
    simLoop_death_char s incs (fm / DAYS_PER_MONTH) (daily_scenario_cost scn) m 0
      { cash := b, dates := [], balances := [], death_day := none, total_income := 0 }
      rfl (by intro x hx; cases hx) d (by rw [← simulate_death]; exact h)
  refine ⟨?_, ⟨c, ?_, hc⟩, ?_, (simulate_shape b s incs fm scn m).1⟩
  · rw [simulate_dates, List.getLast?_reverse]
    exact hhead
  · rw [simulate_balances, hbal, List.reverse_cons, List.getLast?_concat]
  · rw [simulate_balances, hbal, List.reverse_cons, List.dropLast_concat]
    intro x hx
    exact ht x (List.mem_reverse.mp hx)

/-- Witness for C1 at a concrete input: balance 0, start 5, three-day cap;
the run dies on day 0, so the death day 5 is the last (and only) date. -/
theorem claim_C1_death_day_witness :
    (simulate 0 5 [] 0 ⟨"s", []⟩ 3).dates.getLast? = some 5 ∧
    (∃ c, (simulate 0 5 [] 0 ⟨"s", []⟩ 3).balances.getLast? = some c ∧ c ≤ 0) ∧
    (∀ x ∈ (simulate 0 5 [] 0 ⟨"s", []⟩ 3).balances.dropLast, (0 : ℚ) < x) ∧
    (simulate 0 5 [] 0 ⟨"s", []⟩ 3).dates.length =
      (simulate 0 5 [] 0 ⟨"s", []⟩ 3).balances.length :=
  claim_C1_death_day 0 5 [] 0 ⟨"s", []⟩ 3 5 rfl

/-- Claim C4, amended: the claim as stated quantifies over *any* `max_days`,
but for `max_days = 0` (or negative, which Python's `range` also treats as
empty) the returned series are empty.  For `max_days ≥ 1` the claim holds:
`dates` and `balances` have equal length, are non-empty, and `dates` is the
consecutive run of days starting at `start` (strictly increasing, step 1). -/
theorem claim_C4_amended (b : ℚ) (s : Int) (incs : List IncomeEntry) (fm : ℚ)
    (scn : Scenario) (m : Nat) (h : 1 ≤ m) :
    (simulate b s incs fm scn m).dates.length = (simulate b s incs fm scn m).balances.length ∧
    (simulate b s incs fm scn m).dates ≠ [] ∧
    (simulate b s incs fm scn m).balances ≠ [] ∧
    (simulate b s incs fm scn m).dates =
      (List.range (simulate b s incs fm scn m).dates.length).map
        (fun j : Nat => s + (j : Int)) := by
  obtain ⟨h1, h2, h3, _, _⟩ := simulate_shape b s incs fm scn m
  have hdne := h3 (by omega)
  refine ⟨h1, hdne, ?_, h2⟩
  intro hbnil
  apply hdne
  have : (simulate b s incs fm scn m).dates.length = 0 := by
    rw [h1, hbnil]
    rfl
  exact List.eq_nil_of_length_eq_zero this

/-- Witness for the amended C4 at a concrete input with `max_days = 5`. -/
theorem claim_C4_amended_witness :
    (simulate 100 0 [] 0 ⟨"s", []⟩ 5).dates.length =
      (simulate 100 0 [] 0 ⟨"s", []⟩ 5).balances.length ∧
    (simulate 100 0 [] 0 ⟨"s", []⟩ 5).dates ≠ [] ∧
    (simulate 100 0 [] 0 ⟨"s", []⟩ 5).balances ≠ [] ∧
    (simulate 100 0 [] 0 ⟨"s", []⟩ 5).dates =
      (List.range (simulate 100 0 [] 0 ⟨"s", []⟩ 5).dates.length).map
        (fun j : Nat => 0 + (j : Int)) :=
  claim_C4_amended 100 0 [] 0 ⟨"s", []⟩ 5 (by omega)

/-- Counterexample to C4 as stated: with `max_days = 0` (an allowed input —
Python's `range(0)` is empty) both series come back empty, refuting the
claimed non-emptiness "for all inputs ... and max_days". -/
theorem claim_C4_counterexample :
    (simulate 100 0 [] 0 ⟨"s", []⟩ 0).dates = [] ∧
    (simulate 100 0 [] 0 ⟨"s", []⟩ 0).balances = [] :=
  ⟨rfl, rfl⟩

/-- Claim C5, amended: the claim as stated says every recorded balance is
≥ 0 for all inputs, but day 0 records the initial balance *as given*, before
any clamping, so a negative starting balance is recorded negative.  For a
non-negative starting balance every recorded balance is ≥ 0 (the post-flow
clamp keeps every later recorded value non-negative). -/
theorem claim_C5_amended (b : ℚ) (s : Int) (incs : List IncomeEntry) (fm : ℚ)
    (scn : Scenario) (m : Nat) (h : 0 ≤ b) :
    ∀ x ∈ (simulate b s incs fm scn m).balances, (0 : ℚ) ≤ x := by
  intro x hx
  rw [simulate_balances] at hx
  exact simLoop_balances_nonneg s incs (fm / DAYS_PER_MONTH) (daily_scenario_cost scn) m 0
    { cash := b, dates := [], balances := [], death_day := none, total_income := 0 }
    h (by intro y hy; cases hy) x (List.mem_reverse.mp hx)

/-- Witness for the amended C5: starting balance 5, monthly fixed cost 30
(burn 1 per day), three days; all recorded balances are non-negative. -/
theorem claim_C5_amended_witness :
    (0 : ℚ) ≤ 5 ∧ ∀ x ∈ (simulate 5 0 [] 30 ⟨"s", []⟩ 3).balances, (0 : ℚ) ≤ x :=
  ⟨by norm_num, claim_C5_amended 5 0 [] 30 ⟨"s", []⟩ 3 (by norm_num)⟩

/-- Counterexample to C5 as stated: starting balance −5 is recorded as −5 on
day 0 (the run dies immediately), so the recorded series contains a negative
value. -/
theorem claim_C5_counterexample :
    ¬ (∀ x ∈ (simulate (-5) 0 [] 0 ⟨"s", []⟩ 5).balances, (0 : ℚ) ≤ x) := by
  intro hall
  have hb : (simulate (-5) 0 [] 0 ⟨"s", []⟩ 5).balances = [-5] := rfl
  have := hall (-5) (by rw [hb]; exact List.mem_singleton.mpr rfl)
  norm_num at this

/-- Claim C6: if `simulate` reports no death day, the loop ran its full
`max_days` iterations, so both series have length exactly `max_days`. -/
theorem claim_C6_survivor_length (b : ℚ) (s : Int) (incs : List IncomeEntry) (fm : ℚ)
    (scn : Scenario) (m : Nat) (h : (simulate b s incs fm scn m).death_day = none) :
    (simulate b s incs fm scn m).dates.length = m ∧
    (simulate b s incs fm scn m).balances.length = m := by
  obtain ⟨h1, _, _, _, h5⟩ := simulate_shape b s incs fm scn m
  exact ⟨h5 h, by rw [← h1]; exact h5 h⟩

/-- Witness for C6: balance 10 with zero burn survives a 3-day horizon, and
both series have length 3. -/
theorem claim_C6_survivor_length_witness :
    (simulate 10 0 [] 0 ⟨"s", []⟩ 3).dates.length = 3 ∧
    (simulate 10 0 [] 0 ⟨"s", []⟩ 3).balances.length = 3 :=
  claim_C6_survivor_length 10 0 [] 0 ⟨"s", []⟩ 3 (by with_unfolding_all rfl)

/-- Claim C10: with a non-positive starting balance and at least one allowed
day, the run dies immediately on day 0: series length 1, `death_day` is the
start date, the single recorded balance is the initial balance as given (not
clamped), and the average daily income is 0. -/
theorem claim_C10_immediate_death (b : ℚ) (s : Int) (incs : List IncomeEntry) (fm : ℚ)
    (scn : Scenario) (m : Nat) (hb : b ≤ 0) (hm : 1 ≤ m) :
    (simulate b s incs fm scn m).dates.length = 1 ∧
    (simulate b s incs fm scn m).death_day = some s ∧
    (simulate b s incs fm scn m).balances = [b] ∧
    (simulate b s incs fm scn m).daily_income_avg = 0 := by
  obtain ⟨k, rfl⟩ : ∃ k, m = k + 1 := ⟨m - 1, by omega⟩
  have hloop := simLoop_succ_break s incs (fm / DAYS_PER_MONTH) (daily_scenario_cost scn) k 0
    { cash := b, dates := [], balances := [], death_day := none, total_income := 0 }
    ⟨hb, rfl⟩
  refine ⟨?_, ?_, ?_, ?_⟩
  · rw [simulate_dates, hloop]
    rfl
  · rw [simulate_death, hloop]
    norm_num
  · rw [simulate_balances, hloop]
    rfl
  · rw [simulate_avg, hloop]
    norm_num

/-- Witness for C10: balance −3 starting on day 7 with a 2-day cap dies
immediately with the single recorded balance −3. -/
theorem claim_C10_immediate_death_witness :
    (simulate (-3) 7 [] 0 ⟨"s", []⟩ 2).dates.length = 1 ∧
    (simulate (-3) 7 [] 0 ⟨"s", []⟩ 2).death_day = some 7 ∧
    (simulate (-3) 7 [] 0 ⟨"s", []⟩ 2).balances = [-3] ∧
    (simulate (-3) 7 [] 0 ⟨"s", []⟩ 2).daily_income_avg = 0 :=
  claim_C10_immediate_death (-3) 7 [] 0 ⟨"s", []⟩ 2 (by norm_num) (by omega)

/-- Claim C7: `daily_income` is the sum over entries of the claim's per-entry
formula (`claimEntryIncome`: 0 outside the active window; full amount for
`daily`, amount/7 for `weekly`, amount/30 for `monthly`; for `once` the
amount exactly on the start date and 0 otherwise), and the empty entry list
yields 0. -/
theorem claim_C7_daily_income (incs : List IncomeEntry) (d : Int) :
    daily_income incs d = (incs.map (fun inc => claimEntryIncome inc d)).sum ∧
    daily_income [] d = 0 := by
  constructor
  · rw [daily_income_eq_sum]
    congr 1
    apply List.map_congr_left
    intro inc _
    exact entryIncome_eq_claim inc d
  · rfl

/-- Claim C8: an entry whose frequency is not one of daily/weekly/monthly/once
contributes exactly zero — dropping it from any position of the entry list
does not change `daily_income` on any date.  (Totality itself is inherent:
`daily_income` and `entryIncome` are total functions.) -/
theorem claim_C8_unrecognized_frequency (inc : IncomeEntry)
    (h1 : inc.frequency ≠ "daily") (h2 : inc.frequency ≠ "weekly")
    (h3 : inc.frequency ≠ "monthly") (h4 : inc.frequency ≠ "once") :
    (∀ d : Int, entryIncome inc d = 0) ∧
    ∀ (l1 l2 : List IncomeEntry) (d : Int),
      daily_income (l1 ++ inc :: l2) d = daily_income (l1 ++ l2) d := by
  have hz : ∀ d : Int, entryIncome inc d = 0 :=
    fun d => entryIncome_unrecognized inc h1 h2 h3 h4 d
  refine ⟨hz, ?_⟩
  intro l1 l2 d
  rw [daily_income_eq_sum, daily_income_eq_sum, List.map_append, List.map_append,
    List.map_cons, List.sum_append, List.sum_append, List.sum_cons, hz d]
  ring

/-- Witness for C8 with the concrete unrecognized frequency "yearly". -/
theorem claim_C8_unrecognized_frequency_witness :
    (∀ d : Int, entryIncome ⟨"gift", 5, "yearly", 0, none⟩ d = 0) ∧
    ∀ (l1 l2 : List IncomeEntry) (d : Int),
      daily_income (l1 ++ (⟨"gift", 5, "yearly", 0, none⟩ : IncomeEntry) :: l2) d =
        daily_income (l1 ++ l2) d :=
  claim_C8_unrecognized_frequency ⟨"gift", 5, "yearly", 0, none⟩
    (by decide) (by decide) (by decide) (by decide)

/-- Claim C9: `truncated n` (for a length `n`, i.e. a natural number; Python
slicing `[:n]` agrees with prefix-take for `n ≥ 0`) takes the first `n`
elements of `dates` and `balances` and leaves every scalar field —
name, death_day, daily_burn, monthly_burn, daily_income_avg — unchanged;
nothing is invented or recomputed. -/
theorem claim_C9_truncated (r : SimResult) (n : Nat) :
    (r.truncated (n : Int)).dates = r.dates.take n ∧
    (r.truncated (n : Int)).balances = r.balances.take n ∧
    (r.truncated (n : Int)).name = r.name ∧
    (r.truncated (n : Int)).death_day = r.death_day ∧
    (r.truncated (n : Int)).daily_burn = r.daily_burn ∧
    (r.truncated (n : Int)).monthly_burn = r.monthly_burn ∧
    (r.truncated (n : Int)).daily_income_avg = r.daily_income_avg := by
  obtain ⟨h1, h2⟩ := truncated_take r n
  exact ⟨h1, h2, rfl, rfl, rfl, rfl, rfl⟩

/-- Claim C2: a comparison run computes the chart length as the maximum
series length among per-scenario results with a non-none death day (falling
back to the constant 3650 when none depletes — `chartLenSpec`), and returns
exactly the one-simulation-per-scenario results each truncated to that
length (a permutation of them, reordered only by the final sort; every
output element is a truncation of an input result — no re-simulation).
For the claim's example shape — one scenario whose run depletes with series
length 61, one that survives — the chart length is 61 and every returned
series has length 61. -/
theorem claim_C2_comparator (b : ℚ) (s : Int) (incs : List IncomeEntry) (fm : ℚ)
    (scns : List Scenario) :
    (run_all_scenarios b s incs fm scns).Perm
      ((scns.map (fun scn => simulate b s incs fm scn)).map
        (fun r => r.truncated ((chartLenSpec (scns.map (fun scn => simulate b s incs fm scn)) : Int)))) ∧
    (∀ r ∈ run_all_scenarios b s incs fm scns,
      ∃ r0 ∈ scns.map (fun scn => simulate b s incs fm scn),
        r = r0.truncated ((chartLenSpec (scns.map (fun scn => simulate b s incs fm scn)) : Int))) ∧
    (∀ scnA scnB : Scenario,
      (simulate b s incs fm scnA).death_day.isSome = true →
      (simulate b s incs fm scnA).dates.length = 61 →
      (simulate b s incs fm scnB).death_day = none →
      chartLenSpec [simulate b s incs fm scnA, simulate b s incs fm scnB] = 61 ∧
      ∀ r ∈ run_all_scenarios b s incs fm [scnA, scnB], r.dates.length = 61) := by
  refine ⟨?_, ?_, ?_⟩
  · rw [run_all_eq]
    exact List.perm_insertionSort deathLe _
  · intro r hr
    rw [run_all_eq] at hr
    have hr2 := (List.perm_insertionSort deathLe _).mem_iff.mp hr
    obtain ⟨r0, hr0, heq⟩ := List.mem_map.mp hr2
    exact ⟨r0, hr0, heq.symm⟩
  · intro scnA scnB hA hAlen hB
    have hAbal : (simulate b s incs fm scnA).balances.length = 61 := by
      rw [← (simulate_shape b s incs fm scnA MAX_DAYS_DEFAULT).1]
      exact hAlen
    have hcl : chartLenSpec [simulate b s incs fm scnA, simulate b s incs fm scnB] = 61 := by
      unfold chartLenSpec
      rw [List.filter_cons, List.filter_cons, List.filter_nil, hA, hB]
      simp only [Option.isSome_none, Option.isSome_some]
      rw [if_pos trivial, if_neg Bool.false_ne_true]
      rw [List.map_cons, List.map_nil, hAbal]
      rfl
    refine ⟨hcl, ?_⟩
    intro r hr
    rw [run_all_eq] at hr
    have hr2 := (List.perm_insertionSort deathLe _).mem_iff.mp hr
    simp only [List.map_cons, List.map_nil] at hr2
    rw [hcl] at hr2
    have hBlen : (simulate b s incs fm scnB).dates.length = MAX_DAYS_DEFAULT :=
      (simulate_shape b s incs fm scnB MAX_DAYS_DEFAULT).2.2.2.2 hB
    rcases List.mem_cons.mp hr2 with rfl | hr3
    · rw [(truncated_take (simulate b s incs fm scnA) 61).1, List.length_take, hAlen]
      omega
    · rcases List.mem_cons.mp hr3 with rfl | hr4
      · rw [(truncated_take (simulate b s incs fm scnB) 61).1, List.length_take, hBlen]
        norm_num [MAX_DAYS_DEFAULT]
      · cases hr4

/-- Witness for C2: the comparator statement instantiated at a concrete
single-scenario run. -/
theorem claim_C2_comparator_witness :
    (run_all_scenarios 0 0 [] 0 [⟨"solo", []⟩]).Perm
      (([⟨"solo", []⟩].map (fun scn => simulate 0 0 [] 0 scn)).map
        (fun r => r.truncated ((chartLenSpec ([⟨"solo", []⟩].map (fun scn => simulate 0 0 [] 0 scn)) : Int)))) ∧
    (∀ r ∈ run_all_scenarios 0 0 [] 0 [⟨"solo", []⟩],
      ∃ r0 ∈ [⟨"solo", []⟩].map (fun scn => simulate 0 0 [] 0 scn),
        r = r0.truncated ((chartLenSpec ([⟨"solo", []⟩].map (fun scn => simulate 0 0 [] 0 scn)) : Int))) ∧
    (∀ scnA scnB : Scenario,
      (simulate 0 0 [] 0 scnA).death_day.isSome = true →
      (simulate 0 0 [] 0 scnA).dates.length = 61 →
      (simulate 0 0 [] 0 scnB).death_day = none →
      chartLenSpec [simulate 0 0 [] 0 scnA, simulate 0 0 [] 0 scnB] = 61 ∧
      ∀ r ∈ run_all_scenarios 0 0 [] 0 [scnA, scnB], r.dates.length = 61) :=
  claim_C2_comparator 0 0 [] 0 [⟨"solo", []⟩]

/-- Claim C3, amended: the comparator output is the stable ascending sort by
the key `death_day or date.max`.  Provided every depletion date is strictly
before Python's `date.max` (9999-12-31) — which the code uses as the
survivors' sort key — the output is sorted ascending by death day with all
surviving (death_day = none) results after every depleting one, and both
ties and survivors keep their original scenario-input order (for every
death-day value, filtering the output agrees with filtering the pre-sort
truncated results).  The proviso is necessary: a scenario depleting exactly
on 9999-12-31 shares the survivors' sort key and then input order wins (see
the counterexample). -/
theorem claim_C3_amended (b : ℚ) (s : Int) (incs : List IncomeEntry) (fm : ℚ)
    (scns : List Scenario)
    (h : ∀ r ∈ scns.map (fun scn => simulate b s incs fm scn), ∀ dd : Int,
        r.death_day = some dd → dd < dateMax) :
    List.Sorted deathLe (run_all_scenarios b s incs fm scns) ∧
    NoneLast (run_all_scenarios b s incs fm scns) ∧
    (∀ dd : Option Int,
      (run_all_scenarios b s incs fm scns).filter (fun r => r.death_day = dd) =
        ((scns.map (fun scn => simulate b s incs fm scn)).map
          (fun r => r.truncated ((chartLenSpec (scns.map (fun scn => simulate b s incs fm scn)) : Int)))).filter
          (fun r => r.death_day = dd)) := by
  have hsorted : List.Sorted deathLe (run_all_scenarios b s incs fm scns) := by
    rw [run_all_eq]
    exact List.sorted_insertionSort deathLe _
  refine ⟨hsorted, ?_, ?_⟩
  · intro i j hi hj hij h0
    rcases Nat.lt_or_ge i j with hlt | hge
    · rcases hdj : ((run_all_scenarios b s incs fm scns).get ⟨j, hj⟩).death_day with _ | dd
      · rfl
      · exfalso
        have hrel := hsorted.rel_get_of_lt (show (⟨i, hi⟩ : Fin _) < ⟨j, hj⟩ from hlt)
        have hkey_i : deathKey ((run_all_scenarios b s incs fm scns).get ⟨i, hi⟩) = dateMax := by
          unfold deathKey
          rw [h0]
          rfl
        have hkey_j : deathKey ((run_all_scenarios b s incs fm scns).get ⟨j, hj⟩) = dd := by
          unfold deathKey
          rw [hdj]
          rfl
        have hmem : (run_all_scenarios b s incs fm scns).get ⟨j, hj⟩ ∈
            run_all_scenarios b s incs fm scns := List.get_mem _ _ _
        have hmemS : (run_all_scenarios b s incs fm scns).get ⟨j, hj⟩ ∈
            List.insertionSort deathLe
              ((scns.map (fun scn => simulate b s incs fm scn)).map
                (fun r => r.truncated
                  ((chartLenSpec (scns.map (fun scn => simulate b s incs fm scn)) : Int)))) := by
          rw [← run_all_eq]
          exact hmem
        have hmem2 := (List.perm_insertionSort deathLe _).mem_iff.mp hmemS
        obtain ⟨r0, hr0mem, hr0eq⟩ := List.mem_map.mp hmem2
        have hr0dd : r0.death_day = some dd := by
          rw [← truncated_death_day r0
            ((chartLenSpec (scns.map (fun scn => simulate b s incs fm scn)) : Int)), hr0eq]
          exact hdj
        have hlt2 := h r0 hr0mem dd hr0dd
        have hle2 : deathKey ((run_all_scenarios b s incs fm scns).get ⟨i, hi⟩) ≤
            deathKey ((run_all_scenarios b s incs fm scns).get ⟨j, hj⟩) := hrel
        rw [hkey_i, hkey_j] at hle2
        omega
    · have heq : i = j := le_antisymm hij hge
      subst heq
      exact h0
  · intro dd
    rw [run_all_eq]
    refine filter_insertionSort_key (fun r => decide (r.death_day = dd)) ?_ _
    intro x y hx hy
    rw [decide_eq_true_iff] at hx hy
    unfold deathKey
    rw [hx, hy]

/-- Witness for the amended C3 at a concrete input: a single scenario that
depletes on day 0 (death day 0, far before `date.max`). -/
theorem claim_C3_amended_witness :
    List.Sorted deathLe (run_all_scenarios 0 0 [] 0 [⟨"solo", []⟩]) ∧
    NoneLast (run_all_scenarios 0 0 [] 0 [⟨"solo", []⟩]) ∧
    (∀ dd : Option Int,
      (run_all_scenarios 0 0 [] 0 [⟨"solo", []⟩]).filter (fun r => r.death_day = dd) =
        (([⟨"solo", []⟩].map (fun scn => simulate 0 0 [] 0 scn)).map
          (fun r => r.truncated ((chartLenSpec ([⟨"solo", []⟩].map (fun scn => simulate 0 0 [] 0 scn)) : Int)))).filter
          (fun r => r.death_day = dd)) :=
  claim_C3_amended 0 0 [] 0 [⟨"solo", []⟩] (by
    intro r hr dd hdd
    simp only [List.map_cons, List.map_nil, List.mem_singleton] at hr
    subst hr
    have hz : (simulate 0 0 [] 0 ⟨"solo", []⟩).death_day = some 0 := rfl
    rw [hz] at hdd
    injection hdd with hdd0
    subst hdd0
    decide)

/-- Counterexample to C3 as stated: with starting balance 36499, start date
9999-12-31 minus 36499 days (ordinal 3615560), no income, no fixed costs,
and scenarios [B, A] where B has no activities (survives) and A burns
exactly 1 per day (balance hits 0 precisely on day 36499, i.e. on
9999-12-31 = `date.max`), the comparison run returns the surviving scenario
B *before* the depleting scenario A: both sort keys equal `date.max` and the
stable sort keeps input order, so a none-valued `death_day` precedes a real
one, refuting "survivors are placed after every result with a real death
day". -/
theorem claim_C3_counterexample :
    ¬ NoneLast (run_all_scenarios 36499 3615560 [] 0
      [⟨"B", []⟩, ⟨"A", [⟨"a", 1, 7⟩]⟩]) := by
  intro hNL
  have hmap := cex_run_all
  have hlen : (run_all_scenarios 36499 3615560 [] 0
      [⟨"B", []⟩, ⟨"A", [⟨"a", 1, 7⟩]⟩]).length = 2 := by
    have hl := congrArg List.length hmap
    simpa using hl
  have hi0 : (0 : Nat) < (run_all_scenarios 36499 3615560 [] 0
      [⟨"B", []⟩, ⟨"A", [⟨"a", 1, 7⟩]⟩]).length := by omega
  have hi1 : (1 : Nat) < (run_all_scenarios 36499 3615560 [] 0
      [⟨"B", []⟩, ⟨"A", [⟨"a", 1, 7⟩]⟩]).length := by omega
  have h0 : ((run_all_scenarios 36499 3615560 [] 0
      [⟨"B", []⟩, ⟨"A", [⟨"a", 1, 7⟩]⟩]).get ⟨0, hi0⟩).death_day = none := by
    have h := congrArg (fun t => t.get? 0) hmap
    simp only [List.get?_map] at h
    rw [List.get?_eq_get hi0] at h
    simpa using h
  have h1 : ((run_all_scenarios 36499 3615560 [] 0
      [⟨"B", []⟩, ⟨"A", [⟨"a", 1, 7⟩]⟩]).get ⟨1, hi1⟩).death_day = some dateMax := by
    have h := congrArg (fun t => t.get? 1) hmap
    simp only [List.get?_map] at h
    rw [List.get?_eq_get hi1] at h
    simpa using h
  have hcontra := hNL 0 1 hi0 hi1 (by omega) h0
  rw [h1] at hcontra
  cases hcontra
